import Mathlib

/-!
# Verification of the PeetBet agent SDK's result-resolution core

A shallow embedding of the SDK's outcome derivation (`getCoinFlipGameResult`,
`getDiceGameResult`), resolution waiters (`waitForCoinFlipResult`,
`waitForDiceResult`), and VRF cost estimation (`estimateVrfCost`,
`joinCoinFlipRoom`), translated from the TypeScript client.

Conventions of the embedding:
* TypeScript `bigint` fields become `Int`; TS `bigint` division truncates
  toward zero, so it is `Int.tdiv`; TS `%` on `bigint` is `Int.tmod`.
* Addresses are `String`s; `toLowerCase()` is the `toLowerCase` function
  below; the zero-address sentinel is the literal constant below.
* External reads (contract calls, gas oracles) are passed in as explicit
  parameters: plain functions for reads that always produce a value in the
  code path under study, `Except String` values for fallible reads.
  `this.formatTokens` (viem's `formatUnits`, an external library call) is
  abstracted as a parameter `fmt : Int → String`.
* The `async` poll loops become structural recursion on the number of loop
  iterations; each iteration advances the wall clock by exactly the poll
  interval (the sleep being the only modelled passage of time), so the
  `while (Date.now() - startTime < timeout)` guard admits exactly
  `⌈timeout / pollInterval⌉` iterations. The `onProgress` callback is
  fire-and-forget and never affects control flow; the message it would
  receive is factored into `coinFlipProgressMessage` / `diceProgressMessage`.
-/

/-- `toLowerCase()` on an address string: simple per-character lowercasing
(written over the character list so that concrete instances reduce inside
the kernel; `String.toLower` itself recurses on byte positions and does
not). -/
def toLowerCase (s : String) : String := String.mk (s.data.map Char.toLower)

/-- The zero-address sentinel `0x0000000000000000000000000000000000000000`. -/
def ZERO_ADDRESS : String := "0x0000000000000000000000000000000000000000"

/-- `CoinFlipRoom` as returned by `getCoinFlipRoom` (types.ts). -/
structure CoinFlipRoom where
  id : Int
  roomNumber : Int
  createdAt : Int
  playerA : String
  playerB : String
  betAmount : Int
  isActive : Bool
  winner : String
  isHouseGame : Bool
  isChallenge : Bool
  completedAt : Int
  randomWord : Int
  vrfRequestId : Int
  houseEdgeBps : Int
deriving Repr, DecidableEq

/-- `CoinFlipGameResult` (types.ts). `coinResult` is the string
"heads" or "tails". -/
structure CoinFlipGameResult where
  roomId : Int
  didIWin : Bool
  winner : String
  loser : String
  playerA : String
  playerB : String
  betAmount : Int
  payout : Int
  fee : Int
  netChange : Int
  randomWord : Int
  coinResult : String
  summary : String
  completedAt : Int
  isHouseGame : Bool
deriving Repr, DecidableEq

/-- `getCoinFlipGameResult(roomId, playerAddress?)`: the room read by
`getCoinFlipRoom(roomId)` is passed directly; `player` is
`playerAddress ?? this.account?.address` (none when neither is present);
`fmt` stands for `this.formatTokens`. -/
def getCoinFlipGameResult (fmt : Int → String) (room : CoinFlipRoom)
    (player : Option String) : Except String CoinFlipGameResult :=
  if room.isActive then
    Except.error "Game is not completed yet. Use waitForCoinFlipResult() to wait for completion."
  else if room.winner = ZERO_ADDRESS then
    Except.error "Game was cancelled or not completed."
  else
    -- Determine winner and loser (note: this comparison is case-sensitive)
    let winner := room.winner
    let loser := if winner = room.playerA then room.playerB else room.playerA
    -- Calculate payout (bet * 2 minus fees)
    let totalPot := room.betAmount * 2
    let feeBps := room.houseEdgeBps
    let fee := Int.tdiv (totalPot * feeBps) 10000
    let payout := totalPot - fee
    -- Determine if calling player won
    let didIWin := match player with
      | some p => toLowerCase winner == toLowerCase p
      | none => false
    -- Calculate net change for calling player
    let netChange : Int := match player with
      | some p =>
          let isPlayer := toLowerCase p == toLowerCase room.playerA
            || toLowerCase p == toLowerCase room.playerB
          if isPlayer then (if didIWin then payout - room.betAmount else -room.betAmount)
          else 0
      | none => 0
    -- Determine coin result (player A wins on even, player B on odd)
    let coinResult : String := if Int.tmod room.randomWord 2 = 0 then "heads" else "tails"
    -- Generate human-readable summary
    let payoutFormatted := fmt payout
    let netFormatted := fmt (if netChange < 0 then -netChange else netChange)
    let summary : String := match player with
      | none =>
          "Coin landed " ++ coinResult ++ ". Winner: " ++ winner.take 10
            ++ "... won " ++ payoutFormatted ++ " USDC"
      | some p =>
          if didIWin then
            "🎉 You WON! Coin was " ++ coinResult ++ ". You won " ++ payoutFormatted
              ++ " USDC (profit: +" ++ netFormatted ++ " USDC)"
          else
            let wasInGame := toLowerCase p == toLowerCase room.playerA
              || toLowerCase p == toLowerCase room.playerB
            if wasInGame then
              "❌ You LOST. Coin was " ++ coinResult ++ ". Lost " ++ netFormatted
                ++ " USDC to " ++ winner.take 10 ++ "..."
            else
              "Coin landed " ++ coinResult ++ ". Winner: " ++ winner.take 10
                ++ "... won " ++ payoutFormatted ++ " USDC"
    Except.ok
      { roomId := room.id
        didIWin := didIWin
        winner := winner
        loser := loser
        playerA := room.playerA
        playerB := room.playerB
        betAmount := room.betAmount
        payout := payout
        fee := fee
        netChange := netChange
        randomWord := room.randomWord
        coinResult := coinResult
        summary := summary
        completedAt := room.completedAt
        isHouseGame := room.isHouseGame }

/-- `DiceRoom` as returned by `getDiceRoom` (types.ts). -/
structure DiceRoom where
  id : Int
  roomNumber : Int
  creator : String
  betAmount : Int
  maxPlayers : Int
  currentPlayers : Int
  isActive : Bool
  hasStarted : Bool
  winningNumber : Int
  winner : String
  createdAt : Int
  completedAt : Int
  isPrivate : Bool
deriving Repr, DecidableEq

/-- `DiceGameResult` (types.ts). -/
structure DiceGameResult where
  roomId : Int
  didIWin : Bool
  winner : String
  winningNumber : Int
  myNumber : Int
  playerCount : Int
  players : List String
  betAmount : Int
  payout : Int
  fee : Int
  netChange : Int
  randomWord : Int
  summary : String
  completedAt : Int
deriving Repr, DecidableEq

/-- `getDiceGameResult(roomId, playerAddress?)`: `room` is the read
`getDiceRoom(roomId)`, `players` the read `getDiceRoomPlayers(roomId)`,
`getNumber` the read `getPlayerDiceNumber(roomId, ·)`, `player` is
`playerAddress ?? this.account?.address`, `fmt` is `this.formatTokens`. -/
def getDiceGameResult (fmt : Int → String) (getNumber : String → Int)
    (room : DiceRoom) (players : List String)
    (player : Option String) : Except String DiceGameResult :=
  if room.isActive ∨ room.winner = ZERO_ADDRESS then
    Except.error "Game is not completed yet. Use waitForDiceResult() to wait."
  else
    -- Get player's chosen number if they're in the game
    let myNumber : Int := match player with
      | some p =>
          if players.any (fun q => toLowerCase q == toLowerCase p) then getNumber p else 0
      | none => 0
    -- Calculate payout; 5% fee assumed for dice (hardcoded 500 bps)
    let totalPot := room.betAmount * room.currentPlayers
    let fee := Int.tdiv (totalPot * 500) 10000
    let payout := totalPot - fee
    -- Determine if calling player won
    let didIWin := match player with
      | some p => toLowerCase room.winner == toLowerCase p
      | none => false
    -- Calculate net change
    let netChange : Int := match player with
      | some p =>
          if players.any (fun q => toLowerCase q == toLowerCase p) then
            (if didIWin then payout - room.betAmount else -room.betAmount)
          else 0
      | none => 0
    -- Generate summary
    let payoutFormatted := fmt payout
    let summary : String := match player with
      | none =>
          "Number " ++ toString room.winningNumber ++ " won! Winner: "
            ++ room.winner.take 10 ++ "... won " ++ payoutFormatted ++ " USDC"
      | some p =>
          if didIWin then
            "🎉 Number " ++ toString room.winningNumber ++ " won! You WON "
              ++ payoutFormatted ++ " USDC!"
          else if players.any (fun q => toLowerCase q == toLowerCase p) then
            "❌ Number " ++ toString room.winningNumber ++ " won. You LOST (picked "
              ++ toString myNumber ++ ")"
          else
            "Number " ++ toString room.winningNumber ++ " won! Winner: "
              ++ room.winner.take 10 ++ "..."
    Except.ok
      { roomId := room.id
        didIWin := didIWin
        winner := room.winner
        winningNumber := room.winningNumber
        myNumber := myNumber
        playerCount := room.currentPlayers
        players := players
        betAmount := room.betAmount
        payout := payout
        fee := fee
        netChange := netChange
        -- Dice doesn't store random word in room struct
        randomWord := 0
        summary := summary
        completedAt := room.completedAt }

/-- `WaitForResultOptions` (types.ts): optional `timeout` and
`pollInterval` in milliseconds (`onProgress` carries no data relevant to
control flow and is modelled by the progress-message functions below). -/
structure WaitForResultOptions where
  timeout : Option Nat := none
  pollInterval : Option Nat := none

/-- The number of iterations the `while (Date.now() - startTime < timeout)`
poll loop executes when each iteration advances the clock by exactly
`pollInterval`: the iteration at tick `n` runs iff `n * pollInterval <
timeout`, so the count is `⌈timeout / pollInterval⌉`. (The source loops
forever when `pollInterval = 0`; this count is only meaningful for
`pollInterval > 0`.) -/
def numPolls (timeout pollInterval : Nat) : Nat :=
  (timeout + pollInterval - 1) / pollInterval

/-- The argument of the `onProgress` callback in `waitForCoinFlipResult`. -/
def coinFlipProgressMessage (room : CoinFlipRoom) : String :=
  if room.playerB = ZERO_ADDRESS then "Waiting for opponent to join..."
  else "Opponent joined! Waiting for VRF result..."

/-- The argument of the `onProgress` callback in `waitForDiceResult`. -/
def diceProgressMessage (room : DiceRoom) : String :=
  if !room.hasStarted then
    "Waiting for players (" ++ toString room.currentPlayers ++ "/"
      ++ toString room.maxPlayers ++ ")..."
  else "Game started! Waiting for VRF result..."

/-- The error thrown when `waitForCoinFlipResult` runs out of its budget
(`Timeout waiting for game result after (timeout/1000) seconds`; the TS
number division is exact at the timeouts considered here, so `Nat`
division agrees). -/
def coinFlipTimeoutMessage (timeout : Nat) : String :=
  "Timeout waiting for game result after " ++ toString (timeout / 1000) ++ " seconds"

/-- The error thrown when `waitForDiceResult` runs out of its budget. -/
def diceTimeoutMessage (timeout : Nat) : String :=
  "Timeout waiting for dice result after " ++ toString (timeout / 1000) ++ " seconds"

/-- The body of `waitForCoinFlipResult`'s poll loop. `rooms n` is the room
record returned by the `getCoinFlipRoom(roomId)` read of the `n`-th
iteration; `fuel` is the number of iterations the time budget still
admits (see `numPolls`). On completion the source re-reads the room via
`this.getCoinFlipGameResult(roomId)`; a settled room is immutable, so the
re-read observes the same record. -/
def waitForCoinFlipLoop (fmt : Int → String) (rooms : Nat → CoinFlipRoom)
    (player : Option String) (timeout : Nat) :
    Nat → Nat → Except String CoinFlipGameResult
  | _, 0 => Except.error (coinFlipTimeoutMessage timeout)
  | tick, fuel + 1 =>
    let room := rooms tick
    -- Check if game completed
    if room.isActive = false ∧ room.winner ≠ ZERO_ADDRESS then
      getCoinFlipGameResult fmt room player
    -- Check if room was cancelled
    else if room.isActive = false ∧ room.winner = ZERO_ADDRESS
        ∧ room.playerB = ZERO_ADDRESS then
      Except.error "Room was cancelled before game started."
    else
      -- (onProgress receives coinFlipProgressMessage room, fire-and-forget)
      waitForCoinFlipLoop fmt rooms player timeout (tick + 1) fuel

/-- `waitForCoinFlipResult(roomId, options)`. -/
def waitForCoinFlipResult (fmt : Int → String) (rooms : Nat → CoinFlipRoom)
    (player : Option String) (options : WaitForResultOptions) :
    Except String CoinFlipGameResult :=
  let timeout := options.timeout.getD 120000
  let pollInterval := options.pollInterval.getD 2000
  waitForCoinFlipLoop fmt rooms player timeout 0 (numPolls timeout pollInterval)

/-- The body of `waitForDiceResult`'s poll loop. Unlike the CoinFlip
waiter, the source has no cancelled-room branch here: only the completion
check, progress reporting, and the sleep. -/
def waitForDiceLoop (fmt : Int → String) (getNumber : String → Int)
    (rooms : Nat → DiceRoom) (players : List String)
    (player : Option String) (timeout : Nat) :
    Nat → Nat → Except String DiceGameResult
  | _, 0 => Except.error (diceTimeoutMessage timeout)
  | tick, fuel + 1 =>
    let room := rooms tick
    -- Check if game completed
    if room.isActive = false ∧ room.winner ≠ ZERO_ADDRESS then
      getDiceGameResult fmt getNumber room players player
    else
      -- (onProgress receives diceProgressMessage room, fire-and-forget)
      waitForDiceLoop fmt getNumber rooms players player timeout (tick + 1) fuel

/-- `waitForDiceResult(roomId, options)`. -/
def waitForDiceResult (fmt : Int → String) (getNumber : String → Int)
    (rooms : Nat → DiceRoom) (players : List String) (player : Option String)
    (options : WaitForResultOptions) : Except String DiceGameResult :=
  let timeout := options.timeout.getD 120000
  let pollInterval := options.pollInterval.getD 2000
  waitForDiceLoop fmt getNumber rooms players player timeout 0
    (numPolls timeout pollInterval)

/-- The result of viem's `estimateFeesPerGas` (fields may be absent). -/
structure FeesPerGas where
  maxFeePerGas : Option Int
  maxPriorityFeePerGas : Option Int
deriving Repr, DecidableEq

/-- `VrfCostEstimate` (types.ts). -/
structure VrfCostEstimate where
  cost : Int
  maxFeePerGas : Int
  maxPriorityFeePerGas : Int
deriving Repr, DecidableEq

/-- The external reads `estimateVrfCost` performs, in the order the source
performs them: the `vrfCallbackGasLimit` contract read, viem's
`estimateFeesPerGas`, viem's `getGasPrice` (consulted only in the catch
branch), and the VRF wrapper's `estimateRequestPriceNative(gasLimit,
numWords, gasPriceWei)` contract read. -/
structure VrfEnv where
  vrfCallbackGasLimit : Except String Int
  estimateFeesPerGas : Except String FeesPerGas
  getGasPrice : Except String Int
  estimateRequestPriceNative : Int → Int → Int → Except String Int

/-- `estimateVrfCost()`. -/
def estimateVrfCost (env : VrfEnv) : Except String VrfCostEstimate := do
  -- Get callback gas limit from contract
  let callbackGasLimit ← env.vrfCallbackGasLimit
  -- Get current gas prices
  let fees : Int × Int ←
    match env.estimateFeesPerGas with
    | Except.ok feeData =>
        pure (feeData.maxFeePerGas.getD 0,
          feeData.maxPriorityFeePerGas.getD 1500000000)  -- 1.5 gwei default
    | Except.error _ =>
        -- Fallback if estimateFeesPerGas fails
        match env.getGasPrice with
        | Except.ok gasPrice =>
            let maxPriorityFeePerGas : Int := 1500000000  -- 1.5 gwei
            pure ((if gasPrice > maxPriorityFeePerGas then gasPrice
              else maxPriorityFeePerGas), maxPriorityFeePerGas)
        | Except.error e => Except.error e
  let maxFeePerGas := fees.1
  let maxPriorityFeePerGas := fees.2
  -- Ensure maxFeePerGas >= maxPriorityFeePerGas (EIP-1559 requirement)
  let safeMaxFeePerGas :=
    if maxFeePerGas > maxPriorityFeePerGas then maxFeePerGas else maxPriorityFeePerGas
  -- Apply 40% buffer to account for gas price volatility
  let safeMaxFeePerGas := Int.tdiv (safeMaxFeePerGas * 140) 100
  -- Call VRF wrapper with all 3 required arguments
  let baseCost ← env.estimateRequestPriceNative callbackGasLimit 1 safeMaxFeePerGas
  pure { cost := baseCost
         maxFeePerGas := safeMaxFeePerGas
         maxPriorityFeePerGas := maxPriorityFeePerGas }

/-- The hash/receipt pair a write returns (opaque to the claims). -/
structure TransactionResult where
  hash : String
deriving Repr, DecidableEq

/-- `joinCoinFlipRoom(options)`: `requireWallet()` is modelled by
`walletConfigured`; `writeContract` stands for the
`walletClient.writeContract` call with `value`, `maxFeePerGas` and
`maxPriorityFeePerGas` taken from the awaited estimate (the room id and
fixed gas limit are folded into it). -/
def joinCoinFlipRoom (walletConfigured : Bool) (env : VrfEnv)
    (writeContract : Int → Int → Int → Except String TransactionResult) :
    Except String TransactionResult :=
  if walletConfigured = false then
    Except.error "Wallet not configured. Provide privateKey in options."
  else do
    -- Get VRF cost estimate
    let vrfCost ← estimateVrfCost env
    writeContract vrfCost.cost vrfCost.maxFeePerGas vrfCost.maxPriorityFeePerGas

deriving instance DecidableEq for Except

/-! ## Concrete sample inputs (used by the closed witness theorems) -/

/-- A trivial stand-in for `this.formatTokens` in concrete runs. -/
def fmtEmpty : Int → String := fun _ => ""

/-- A trivial stand-in for `getPlayerDiceNumber` in concrete runs. -/
def diceNumberZero : String → Int := fun _ => 0

/-- A settled CoinFlip room: bet 1 USDC, 500 bps house edge, won by its
creator, settlement random word 6. -/
def cfRoomSettled : CoinFlipRoom :=
  { id := 1, roomNumber := 1, createdAt := 100,
    playerA := "0xaaaa", playerB := "0xbbbb", betAmount := 1000000,
    isActive := false, winner := "0xaaaa", isHouseGame := false,
    isChallenge := false, completedAt := 200, randomWord := 6,
    vrfRequestId := 9, houseEdgeBps := 500 }

/-- The settled room with a 5000 bps (50%) house edge, so that
`payout = betAmount`. -/
def cfRoomHalfEdge : CoinFlipRoom := { cfRoomSettled with houseEdgeBps := 5000 }

/-- A CoinFlip room still waiting (`isActive = true`). -/
def cfRoomActive : CoinFlipRoom := { cfRoomSettled with isActive := true }

/-- A cancelled CoinFlip room: inactive, zero winner, no opponent. -/
def cfRoomCancelled : CoinFlipRoom :=
  { cfRoomSettled with winner := ZERO_ADDRESS, playerB := ZERO_ADDRESS }

/-- A settled CoinFlip room whose recorded `winner` spells the creator's
address with different letter case than `playerA` does. -/
def cfRoomUpperWinner : CoinFlipRoom :=
  { cfRoomSettled with playerA := "0xab", playerB := "0xcd", winner := "0xAB" }

/-- The same room with `winner` spelled exactly as `playerA`. -/
def cfRoomLowerWinner : CoinFlipRoom := { cfRoomUpperWinner with winner := "0xab" }

/-- A settled three-player Dice room won by its creator. -/
def diceRoomSettled : DiceRoom :=
  { id := 2, roomNumber := 2, creator := "0xaaaa", betAmount := 1000000,
    maxPlayers := 4, currentPlayers := 3, isActive := false, hasStarted := true,
    winningNumber := 4, winner := "0xaaaa", createdAt := 100,
    completedAt := 200, isPrivate := false }

/-- The list returned by `getDiceRoomPlayers` for `diceRoomSettled`. -/
def dicePlayersSettled : List String := ["0xaaaa", "0xbbbb", "0xcccc"]

/-- A Dice room still waiting (`isActive = true`). -/
def diceRoomActive : DiceRoom := { diceRoomSettled with isActive := true }

/-- A cancelled Dice room: inactive, zero winner, nobody joined beyond the
creator, never started. -/
def diceRoomCancelled : DiceRoom :=
  { diceRoomSettled with
      winner := ZERO_ADDRESS
      currentPlayers := 1
      hasStarted := false
      winningNumber := 0 }

/-! ## C1: pot conservation and fee arithmetic -/

/-- Claim C1: for every settled CoinFlip room, `getCoinFlipGameResult`
returns `fee = ⌊betAmount · 2 · houseEdgeBps / 10000⌋` and
`payout = betAmount · 2 − fee`, so `payout + fee = betAmount · 2`; and for
every settled Dice room, `getDiceGameResult` returns
`fee = ⌊betAmount · currentPlayers · 500 / 10000⌋` (fixed 500 bps) and
`payout = betAmount · currentPlayers − fee`, so `payout + fee` equals the
total pot. (`/` on `Int` is floor division for the nonnegative on-chain
quantities involved.) -/
theorem c1_payout_fee_conservation :
    (∀ (fmt : Int → String) (room : CoinFlipRoom) (player : Option String)
        (r : CoinFlipGameResult),
        getCoinFlipGameResult fmt room player = Except.ok r →
        0 ≤ room.betAmount → 0 ≤ room.houseEdgeBps →
        r.fee = room.betAmount * 2 * room.houseEdgeBps / 10000 ∧
        r.payout = room.betAmount * 2 - r.fee ∧
        r.payout + r.fee = room.betAmount * 2) ∧
    (∀ (fmt : Int → String) (getNumber : String → Int) (room : DiceRoom)
        (players : List String) (player : Option String) (r : DiceGameResult),
        getDiceGameResult fmt getNumber room players player = Except.ok r →
        0 ≤ room.betAmount → 0 ≤ room.currentPlayers →
        r.fee = room.betAmount * room.currentPlayers * 500 / 10000 ∧
        r.payout = room.betAmount * room.currentPlayers - r.fee ∧
        r.payout + r.fee = room.betAmount * room.currentPlayers) := by
  constructor
  · intro fmt room player r h hb he
    rw [getCoinFlipGameResult] at h
    split at h
    · exact Except.noConfusion h
    · split at h
      · exact Except.noConfusion h
      · rw [Except.ok.injEq] at h
        subst h
        have htd : (room.betAmount * 2 * room.houseEdgeBps).tdiv 10000 =
            room.betAmount * 2 * room.houseEdgeBps / 10000 :=
          Int.tdiv_eq_ediv (by positivity) (by norm_num)
        refine ⟨htd, by rw [htd], by rw [htd]; ring⟩
  · intro fmt getNumber room players player r h hb hc
    rw [getDiceGameResult.eq_def] at h
    split at h
    · exact Except.noConfusion h
    · rw [Except.ok.injEq] at h
      subst h
      have htd : (room.betAmount * room.currentPlayers * 500).tdiv 10000 =
          room.betAmount * room.currentPlayers * 500 / 10000 :=
        Int.tdiv_eq_ediv (by positivity) (by norm_num)
      refine ⟨htd, by rw [htd], by rw [htd]; ring⟩

/-- Witness for C1 at the sample rooms: bet 1 USDC, edge 500 bps gives
fee 0.1 USDC and payout 1.9 USDC; three dice players at 1 USDC give fee
0.15 USDC and payout 2.85 USDC. -/
theorem c1_payout_fee_conservation_witness :
    ((getCoinFlipGameResult fmtEmpty cfRoomSettled none).toOption.get rfl).fee =
        cfRoomSettled.betAmount * 2 * cfRoomSettled.houseEdgeBps / 10000 ∧
    ((getCoinFlipGameResult fmtEmpty cfRoomSettled none).toOption.get rfl).payout +
        ((getCoinFlipGameResult fmtEmpty cfRoomSettled none).toOption.get rfl).fee =
      cfRoomSettled.betAmount * 2 ∧
    ((getDiceGameResult fmtEmpty diceNumberZero diceRoomSettled
        dicePlayersSettled none).toOption.get rfl).fee =
      diceRoomSettled.betAmount * diceRoomSettled.currentPlayers * 500 / 10000 ∧
    ((getDiceGameResult fmtEmpty diceNumberZero diceRoomSettled
        dicePlayersSettled none).toOption.get rfl).payout +
        ((getDiceGameResult fmtEmpty diceNumberZero diceRoomSettled
          dicePlayersSettled none).toOption.get rfl).fee =
      diceRoomSettled.betAmount * diceRoomSettled.currentPlayers := by
  have h1 := c1_payout_fee_conservation.1 fmtEmpty cfRoomSettled none
    ((getCoinFlipGameResult fmtEmpty cfRoomSettled none).toOption.get rfl)
    rfl (by decide) (by decide)
  have h2 := c1_payout_fee_conservation.2 fmtEmpty diceNumberZero diceRoomSettled
    dicePlayersSettled none
    ((getDiceGameResult fmtEmpty diceNumberZero diceRoomSettled
      dicePlayersSettled none).toOption.get rfl)
    rfl (by decide) (by decide)
  exact ⟨h1.1, h1.2.2, h2.1, h2.2.2⟩

/-! ## Field characterization of a successful CoinFlip derivation -/

/-- When `getCoinFlipGameResult` succeeds, the room was inactive with a
nonzero winner, and every field of the result is the source expression
over the room record. -/
theorem getCoinFlipGameResult_ok_elim (fmt : Int → String) (room : CoinFlipRoom)
    (player : Option String) (r : CoinFlipGameResult)
    (h : getCoinFlipGameResult fmt room player = Except.ok r) :
    room.isActive = false ∧ room.winner ≠ ZERO_ADDRESS ∧
    r.winner = room.winner ∧ r.playerA = room.playerA ∧ r.playerB = room.playerB ∧
    r.betAmount = room.betAmount ∧ r.randomWord = room.randomWord ∧
    r.loser = (if room.winner = room.playerA then room.playerB else room.playerA) ∧
    r.fee = Int.tdiv (room.betAmount * 2 * room.houseEdgeBps) 10000 ∧
    r.payout = room.betAmount * 2 - r.fee ∧
    r.coinResult = (if Int.tmod room.randomWord 2 = 0 then "heads" else "tails") ∧
    r.didIWin = (match player with
      | some p => toLowerCase room.winner == toLowerCase p
      | none => false) ∧
    r.netChange = (match player with
      | some p =>
          if (toLowerCase p == toLowerCase room.playerA
              || toLowerCase p == toLowerCase room.playerB) then
            (if toLowerCase room.winner == toLowerCase p then
              r.payout - room.betAmount else -room.betAmount)
          else 0
      | none => 0) := by
  rw [getCoinFlipGameResult] at h
  split at h
  · exact Except.noConfusion h
  · split at h
    · exact Except.noConfusion h
    · rw [Except.ok.injEq] at h
      subst h
      rename_i hact hwin
      refine ⟨by simpa using hact, hwin, rfl, rfl, rfl, rfl, rfl, rfl, rfl, rfl, rfl, ?_, ?_⟩
      · cases player <;> rfl
      · cases player <;> rfl

/-- When `getDiceGameResult` succeeds, the room was inactive with a
nonzero winner, and every numeric field of the result is the source
expression over the room record. -/
theorem getDiceGameResult_ok_elim (fmt : Int → String) (getNumber : String → Int)
    (room : DiceRoom) (players : List String) (player : Option String)
    (r : DiceGameResult)
    (h : getDiceGameResult fmt getNumber room players player = Except.ok r) :
    room.isActive = false ∧ room.winner ≠ ZERO_ADDRESS ∧
    r.winner = room.winner ∧ r.betAmount = room.betAmount ∧
    r.playerCount = room.currentPlayers ∧ r.players = players ∧
    r.randomWord = 0 ∧
    r.fee = Int.tdiv (room.betAmount * room.currentPlayers * 500) 10000 ∧
    r.payout = room.betAmount * room.currentPlayers - r.fee ∧
    r.didIWin = (match player with
      | some p => toLowerCase room.winner == toLowerCase p
      | none => false) ∧
    r.netChange = (match player with
      | some p =>
          if players.any (fun q => toLowerCase q == toLowerCase p) then
            (if toLowerCase room.winner == toLowerCase p then
              r.payout - room.betAmount else -room.betAmount)
          else 0
      | none => 0) := by
  rw [getDiceGameResult.eq_def] at h
  split at h
  · exact Except.noConfusion h
  · rw [Except.ok.injEq] at h
    subst h
    rename_i hcond
    push_neg at hcond
    refine ⟨by simpa using hcond.1, hcond.2, rfl, rfl, rfl, rfl, rfl, rfl, rfl, ?_, ?_⟩
    · cases player <;> rfl
    · cases player <;> rfl

/-! ## C2: coin-face parity convention -/

/-- Claim C2: for every settled CoinFlip room, `coinResult` is "heads"
exactly when the room's `randomWord` is even and "tails" exactly when it
is odd; it depends on nothing but `randomWord` (any two successful
derivations, whatever the observer and other fields, agree on it whenever
their rooms carry the same random word). -/
theorem c2_coin_parity :
    ∀ (fmt : Int → String) (room : CoinFlipRoom) (player : Option String)
      (r : CoinFlipGameResult),
      getCoinFlipGameResult fmt room player = Except.ok r →
      ((r.coinResult = "heads" ↔ 2 ∣ room.randomWord) ∧
       (r.coinResult = "tails" ↔ ¬ (2 ∣ room.randomWord)) ∧
       (∀ (fmt₂ : Int → String) (room₂ : CoinFlipRoom) (player₂ : Option String)
          (r₂ : CoinFlipGameResult),
          getCoinFlipGameResult fmt₂ room₂ player₂ = Except.ok r₂ →
          room₂.randomWord = room.randomWord →
          r₂.coinResult = r.coinResult)) := by
  intro fmt room player r h
  have hr := (getCoinFlipGameResult_ok_elim fmt room player r h).2.2.2.2.2.2.2.2.2.2.1
  have hdvd : Int.tmod room.randomWord 2 = 0 ↔ 2 ∣ room.randomWord :=
    ⟨Int.dvd_of_tmod_eq_zero, Int.tmod_eq_zero_of_dvd⟩
  refine ⟨?_, ?_, ?_⟩
  · rw [hr]
    by_cases ht : Int.tmod room.randomWord 2 = 0 <;>
      simp [ht, ← hdvd]
  · rw [hr]
    by_cases ht : Int.tmod room.randomWord 2 = 0 <;>
      simp [ht, ← hdvd]
  · intro fmt₂ room₂ player₂ r₂ h₂ hrw
    have hr₂ := (getCoinFlipGameResult_ok_elim fmt₂ room₂ player₂ r₂ h₂).2.2.2.2.2.2.2.2.2.2.1
    rw [hr, hr₂, hrw]

/-- Witness for C2: the sample settled room has random word 6 (even), and
its derivation reports "heads" for any observer. -/
theorem c2_coin_parity_witness :
    ((getCoinFlipGameResult fmtEmpty cfRoomSettled none).toOption.get rfl).coinResult
        = "heads" ∧
    (2 : Int) ∣ cfRoomSettled.randomWord := by
  have h := c2_coin_parity fmtEmpty cfRoomSettled none
    ((getCoinFlipGameResult fmtEmpty cfRoomSettled none).toOption.get rfl) rfl
  exact ⟨h.1.mpr (by decide), by decide⟩

/-! ## C10: the Dice result never surfaces the VRF random word -/

/-- Claim C10: for every successful Dice derivation, whatever the room
state and observer, the `randomWord` field of the result is `0` — the
Oracle's random value is never surfaced in Dice results. -/
theorem c10_dice_randomWord_zero :
    ∀ (fmt : Int → String) (getNumber : String → Int) (room : DiceRoom)
      (players : List String) (player : Option String) (r : DiceGameResult),
      getDiceGameResult fmt getNumber room players player = Except.ok r →
      r.randomWord = 0 := by
  intro fmt getNumber room players player r h
  exact (getDiceGameResult_ok_elim fmt getNumber room players player r h).2.2.2.2.2.2.1

/-- Witness for C10 at the settled sample Dice room. -/
theorem c10_dice_randomWord_zero_witness :
    ((getDiceGameResult fmtEmpty diceNumberZero diceRoomSettled dicePlayersSettled
        (some "0xbbbb")).toOption.get rfl).randomWord = 0 :=
  c10_dice_randomWord_zero fmtEmpty diceNumberZero diceRoomSettled dicePlayersSettled
    (some "0xbbbb") _ rfl

/-! ## C4: error conditions of the two derivations -/

/-- Counterexample to C4 as stated: the cancelled Dice room (inactive,
zero winner) produces exactly the same error as an unsettled Dice room —
there is no distinct "cancelled/unset" error on the Dice side. -/
theorem c4_counterexample :
    diceRoomCancelled.isActive = false ∧
    diceRoomCancelled.winner = ZERO_ADDRESS ∧
    diceRoomActive.isActive = true ∧
    getDiceGameResult fmtEmpty diceNumberZero diceRoomCancelled ["0xaaaa"] none =
      Except.error "Game is not completed yet. Use waitForDiceResult() to wait." ∧
    getDiceGameResult fmtEmpty diceNumberZero diceRoomActive dicePlayersSettled none =
      Except.error "Game is not completed yet. Use waitForDiceResult() to wait." :=
  ⟨rfl, rfl, rfl, rfl, rfl⟩

/-- Claim C4 as amended: every room with `isActive = true` makes both
derivations fail, and every inactive room with a zero winner makes both
fail; CoinFlip distinguishes the two situations with two distinct error
messages, while Dice raises its single "not completed" error in both. -/
theorem c4_error_conditions :
    (∀ (fmt : Int → String) (room : CoinFlipRoom) (player : Option String),
        room.isActive = true →
        getCoinFlipGameResult fmt room player = Except.error
          "Game is not completed yet. Use waitForCoinFlipResult() to wait for completion.") ∧
    (∀ (fmt : Int → String) (room : CoinFlipRoom) (player : Option String),
        room.isActive = false → room.winner = ZERO_ADDRESS →
        getCoinFlipGameResult fmt room player = Except.error
          "Game was cancelled or not completed.") ∧
    ("Game is not completed yet. Use waitForCoinFlipResult() to wait for completion."
      ≠ "Game was cancelled or not completed.") ∧
    (∀ (fmt : Int → String) (getNumber : String → Int) (room : DiceRoom)
        (players : List String) (player : Option String),
        room.isActive = true ∨ room.winner = ZERO_ADDRESS →
        getDiceGameResult fmt getNumber room players player = Except.error
          "Game is not completed yet. Use waitForDiceResult() to wait.") := by
  refine ⟨?_, ?_, by decide, ?_⟩
  · intro fmt room player h
    rw [getCoinFlipGameResult]
    simp [h]
  · intro fmt room player ha hw
    rw [getCoinFlipGameResult]
    simp [ha, hw]
  · intro fmt getNumber room players player h
    rw [getDiceGameResult.eq_def]
    rcases h with h | h <;> simp [h]

/-- Witness for the amended C4 at the concrete sample rooms. -/
theorem c4_error_conditions_witness :
    getCoinFlipGameResult fmtEmpty cfRoomActive none = Except.error
      "Game is not completed yet. Use waitForCoinFlipResult() to wait for completion." ∧
    getCoinFlipGameResult fmtEmpty cfRoomCancelled none = Except.error
      "Game was cancelled or not completed." ∧
    getDiceGameResult fmtEmpty diceNumberZero diceRoomActive dicePlayersSettled none
      = Except.error "Game is not completed yet. Use waitForDiceResult() to wait." :=
  ⟨c4_error_conditions.1 fmtEmpty cfRoomActive none rfl,
   c4_error_conditions.2.1 fmtEmpty cfRoomCancelled none rfl rfl,
   c4_error_conditions.2.2.2 fmtEmpty diceNumberZero diceRoomActive
     dicePlayersSettled none (Or.inl rfl)⟩

/-! ## C3: net change per observer -/

/-- Counterexample to C3 as stated: with a 5000 bps house edge the payout
equals the bet, so a non-participant observer (whose net change is 0)
also satisfies `netChange = payout - betAmount` without being the
winner — the first "iff" fails. -/
theorem c3_counterexample :
    ((getCoinFlipGameResult fmtEmpty cfRoomHalfEdge (some "0xcccc")).toOption.get
        rfl).netChange =
      ((getCoinFlipGameResult fmtEmpty cfRoomHalfEdge (some "0xcccc")).toOption.get
        rfl).payout - cfRoomHalfEdge.betAmount ∧
    ((getCoinFlipGameResult fmtEmpty cfRoomHalfEdge (some "0xcccc")).toOption.get
        rfl).didIWin = false ∧
    toLowerCase "0xcccc" ≠ toLowerCase cfRoomHalfEdge.winner := by
  refine ⟨by decide, by decide, by decide⟩

/-- Claim C3 as amended: for a settled CoinFlip room whose recorded winner
is one of the two players, the three net-change implications always hold
in the membership-to-value direction (winner gets `payout − betAmount`,
a non-winning participant gets `−betAmount`, a non-participant gets `0`);
the three biconditionals hold as soon as the three candidate values are
pairwise distinct (`payout ≠ 0`, `payout ≠ betAmount`, `betAmount ≠ 0` —
degenerate house edges of 5000 or 10000 bps break them, as the
counterexample shows); and an omitted observer never makes derivation
fail: it yields `didIWin = false`, `netChange = 0`, and exactly the result
of any observer who is not a participant and not the winner. -/
theorem c3_netchange_observer :
    (∀ (fmt : Int → String) (room : CoinFlipRoom) (p : String)
        (r : CoinFlipGameResult),
        getCoinFlipGameResult fmt room (some p) = Except.ok r →
        (toLowerCase room.winner = toLowerCase room.playerA ∨
          toLowerCase room.winner = toLowerCase room.playerB) →
        ((toLowerCase p = toLowerCase room.winner →
            r.netChange = r.payout - room.betAmount) ∧
         ((toLowerCase p = toLowerCase room.playerA ∨
             toLowerCase p = toLowerCase room.playerB) →
           toLowerCase p ≠ toLowerCase room.winner →
           r.netChange = -room.betAmount) ∧
         (¬(toLowerCase p = toLowerCase room.playerA ∨
             toLowerCase p = toLowerCase room.playerB) →
           r.netChange = 0) ∧
         (r.payout ≠ 0 → r.payout ≠ room.betAmount → room.betAmount ≠ 0 →
           ((r.netChange = r.payout - room.betAmount ↔
              toLowerCase p = toLowerCase room.winner) ∧
            (r.netChange = -room.betAmount ↔
              ((toLowerCase p = toLowerCase room.playerA ∨
                 toLowerCase p = toLowerCase room.playerB) ∧
                toLowerCase p ≠ toLowerCase room.winner)) ∧
            (r.netChange = 0 ↔
              ¬(toLowerCase p = toLowerCase room.playerA ∨
                 toLowerCase p = toLowerCase room.playerB)))))) ∧
    (∀ (fmt : Int → String) (room : CoinFlipRoom) (q : String),
        toLowerCase q ≠ toLowerCase room.playerA →
        toLowerCase q ≠ toLowerCase room.playerB →
        toLowerCase q ≠ toLowerCase room.winner →
        getCoinFlipGameResult fmt room (some q) =
          getCoinFlipGameResult fmt room none) ∧
    (∀ (fmt : Int → String) (room : CoinFlipRoom) (r : CoinFlipGameResult),
        getCoinFlipGameResult fmt room none = Except.ok r →
        r.didIWin = false ∧ r.netChange = 0) := by
  refine ⟨?_, ?_, ?_⟩
  · intro fmt room p r h hinv
    have hel := getCoinFlipGameResult_ok_elim fmt room (some p) r h
    have hnc := hel.2.2.2.2.2.2.2.2.2.2.2.2
    simp only [Bool.or_eq_true, beq_iff_eq] at hnc
    split_ifs at hnc with hmem hw
    · -- participant and winner: netChange = payout - betAmount
      refine ⟨fun _ => hnc, fun _ hne => (hne hw.symm).elim,
        fun hnm => (hnm hmem).elim, fun h1 h2 _ => ?_⟩
      refine ⟨iff_of_true hnc hw.symm, iff_of_false ?_ ?_, iff_of_false ?_ ?_⟩
      · rw [hnc]; intro heq; exact h1 (by omega)
      · rintro ⟨-, hne⟩; exact hne hw.symm
      · rw [hnc]; intro heq; exact h2 (by omega)
      · intro hnm; exact hnm hmem
    · -- participant but not winner: netChange = -betAmount
      refine ⟨fun hpw => (hw hpw.symm).elim, fun _ _ => hnc,
        fun hnm => (hnm hmem).elim, fun h1 _ h3 => ?_⟩
      refine ⟨iff_of_false ?_ ?_, iff_of_true hnc ⟨hmem, fun hx => hw hx.symm⟩,
        iff_of_false ?_ ?_⟩
      · rw [hnc]; intro heq; exact h1 (by omega)
      · intro hpw; exact hw hpw.symm
      · rw [hnc]; intro heq; exact h3 (by omega)
      · intro hnm; exact hnm hmem
    · -- not a participant: netChange = 0
      have hnw : ¬toLowerCase p = toLowerCase room.winner := fun hpw =>
        hmem (hinv.imp (fun hx => hpw.trans hx) (fun hx => hpw.trans hx))
      refine ⟨fun hpw => (hnw hpw).elim, fun hm _ => (hmem hm).elim,
        fun _ => hnc, fun _ h2 h3 => ?_⟩
      refine ⟨iff_of_false ?_ hnw, iff_of_false ?_ ?_, iff_of_true hnc hmem⟩
      · rw [hnc]; intro heq; exact h2 (by omega)
      · rw [hnc]; intro heq; exact h3 (by omega)
      · rintro ⟨hm, -⟩; exact hmem hm
  · intro fmt room q hqa hqb hqw
    have hb1 : (toLowerCase room.winner == toLowerCase q) = false := by
      simp [beq_eq_false_iff_ne]; exact fun hx => hqw hx.symm
    have hb2 : (toLowerCase q == toLowerCase room.playerA
        || toLowerCase q == toLowerCase room.playerB) = false := by
      simp [beq_eq_false_iff_ne]; exact ⟨hqa, hqb⟩
    rw [getCoinFlipGameResult, getCoinFlipGameResult]
    split
    · rfl
    · split
      · rfl
      · simp only [Except.ok.injEq, CoinFlipGameResult.mk.injEq]
        simp [hb1, hb2]
  · intro fmt room r h
    have hel := getCoinFlipGameResult_ok_elim fmt room none r h
    have hdw := hel.2.2.2.2.2.2.2.2.2.2.2.1
    have hnc := hel.2.2.2.2.2.2.2.2.2.2.2.2
    simp only at hdw hnc
    exact ⟨hdw, hnc⟩

/-- Witness for the amended C3: on the sample settled room the winner
observed under different casing gets `netChange = payout − betAmount`; an
outside address produces exactly the omitted-observer result, which has
`didIWin = false` and `netChange = 0`. -/
theorem c3_netchange_observer_witness :
    ((getCoinFlipGameResult fmtEmpty cfRoomSettled (some "0xAAAA")).toOption.get
        rfl).netChange =
      ((getCoinFlipGameResult fmtEmpty cfRoomSettled (some "0xAAAA")).toOption.get
        rfl).payout - cfRoomSettled.betAmount ∧
    getCoinFlipGameResult fmtEmpty cfRoomSettled (some "0xdddd") =
      getCoinFlipGameResult fmtEmpty cfRoomSettled none ∧
    ((getCoinFlipGameResult fmtEmpty cfRoomSettled none).toOption.get
        rfl).didIWin = false ∧
    ((getCoinFlipGameResult fmtEmpty cfRoomSettled none).toOption.get
        rfl).netChange = 0 := by
  have h1 := c3_netchange_observer.1 fmtEmpty cfRoomSettled "0xAAAA"
    ((getCoinFlipGameResult fmtEmpty cfRoomSettled (some "0xAAAA")).toOption.get rfl)
    rfl (Or.inl (by decide))
  have h3 := c3_netchange_observer.2.2 fmtEmpty cfRoomSettled
    ((getCoinFlipGameResult fmtEmpty cfRoomSettled none).toOption.get rfl) rfl
  exact ⟨h1.1 (by decide),
    c3_netchange_observer.2.1 fmtEmpty cfRoomSettled "0xdddd"
      (by decide) (by decide) (by decide),
    h3.1, h3.2⟩

/-! ## C9: case sensitivity of address comparisons in derivation -/

/-- Counterexample to C9 as stated: two settled rooms identical except for
the letter case of `winner` (the same address case-insensitively) produce
different `loser` fields — the winner/playerA comparison behind `loser`
is case-sensitive, so the derivation result is not invariant under
re-casing an input address. -/
theorem c9_counterexample :
    toLowerCase cfRoomUpperWinner.winner = toLowerCase cfRoomLowerWinner.winner ∧
    cfRoomUpperWinner.playerA = cfRoomLowerWinner.playerA ∧
    cfRoomUpperWinner.playerB = cfRoomLowerWinner.playerB ∧
    ((getCoinFlipGameResult fmtEmpty cfRoomUpperWinner none).toOption.get
        rfl).loser = "0xab" ∧
    ((getCoinFlipGameResult fmtEmpty cfRoomLowerWinner none).toOption.get
        rfl).loser = "0xcd" ∧
    toLowerCase "0xab" ≠ toLowerCase "0xcd" := by
  refine ⟨by decide, by decide, by decide, by decide, by decide, by decide⟩

/-- Claim C9 as amended: the observer-dependent derivation outputs —
`didIWin` and `netChange` — and the address-free outputs `fee`, `payout`
and `coinResult` are invariant under re-casing any input address (winner,
playerA, playerB, observer); the `loser` field is excluded, being computed
by a case-sensitive comparison (see the counterexample). -/
theorem c9_case_insensitivity :
    ∀ (fmt : Int → String) (room₁ room₂ : CoinFlipRoom)
      (p₁ p₂ : Option String) (r₁ r₂ : CoinFlipGameResult),
      getCoinFlipGameResult fmt room₁ p₁ = Except.ok r₁ →
      getCoinFlipGameResult fmt room₂ p₂ = Except.ok r₂ →
      toLowerCase room₁.playerA = toLowerCase room₂.playerA →
      toLowerCase room₁.playerB = toLowerCase room₂.playerB →
      toLowerCase room₁.winner = toLowerCase room₂.winner →
      Option.map toLowerCase p₁ = Option.map toLowerCase p₂ →
      room₁.betAmount = room₂.betAmount →
      room₁.houseEdgeBps = room₂.houseEdgeBps →
      room₁.randomWord = room₂.randomWord →
      r₁.fee = r₂.fee ∧ r₁.payout = r₂.payout ∧ r₁.coinResult = r₂.coinResult ∧
      r₁.didIWin = r₂.didIWin ∧ r₁.netChange = r₂.netChange := by
  intro fmt room₁ room₂ p₁ p₂ r₁ r₂ h₁ h₂ hpa hpb hw hobs hbet hedge hrand
  have hel₁ := getCoinFlipGameResult_ok_elim fmt room₁ p₁ r₁ h₁
  have hel₂ := getCoinFlipGameResult_ok_elim fmt room₂ p₂ r₂ h₂
  obtain ⟨-, -, -, -, -, -, -, -, hfee₁, hpay₁, hcoin₁, hdw₁, hnc₁⟩ := hel₁
  obtain ⟨-, -, -, -, -, -, -, -, hfee₂, hpay₂, hcoin₂, hdw₂, hnc₂⟩ := hel₂
  have hfee : r₁.fee = r₂.fee := by rw [hfee₁, hfee₂, hbet, hedge]
  have hpay : r₁.payout = r₂.payout := by rw [hpay₁, hpay₂, hbet, hfee]
  have hcoin : r₁.coinResult = r₂.coinResult := by rw [hcoin₁, hcoin₂, hrand]
  refine ⟨hfee, hpay, hcoin, ?_, ?_⟩
  · cases p₁ <;> cases p₂ <;> simp only [Option.map] at hobs
    · rw [hdw₁, hdw₂]
    · exact Option.noConfusion hobs
    · exact Option.noConfusion hobs
    · rw [hdw₁, hdw₂]
      dsimp only
      rw [Option.some.injEq] at hobs
      rw [hw, hobs]
  · cases p₁ <;> cases p₂ <;> simp only [Option.map] at hobs
    · rw [hnc₁, hnc₂]
    · exact Option.noConfusion hobs
    · exact Option.noConfusion hobs
    · rw [hnc₁, hnc₂]
      dsimp only
      rw [Option.some.injEq] at hobs
      rw [hw, hobs, hpa, hpb, hpay, hbet]

/-- Witness for the amended C9: re-casing both the recorded winner and the
observer leaves `didIWin`, `netChange` and `fee` unchanged on the sample
rooms. -/
theorem c9_case_insensitivity_witness :
    ((getCoinFlipGameResult fmtEmpty cfRoomUpperWinner (some "0xAB")).toOption.get
        rfl).didIWin =
      ((getCoinFlipGameResult fmtEmpty cfRoomLowerWinner (some "0xab")).toOption.get
        rfl).didIWin ∧
    ((getCoinFlipGameResult fmtEmpty cfRoomUpperWinner (some "0xAB")).toOption.get
        rfl).netChange =
      ((getCoinFlipGameResult fmtEmpty cfRoomLowerWinner (some "0xab")).toOption.get
        rfl).netChange ∧
    ((getCoinFlipGameResult fmtEmpty cfRoomUpperWinner (some "0xAB")).toOption.get
        rfl).fee =
      ((getCoinFlipGameResult fmtEmpty cfRoomLowerWinner (some "0xab")).toOption.get
        rfl).fee := by
  have h := c9_case_insensitivity fmtEmpty cfRoomUpperWinner cfRoomLowerWinner
    (some "0xAB") (some "0xab")
    ((getCoinFlipGameResult fmtEmpty cfRoomUpperWinner (some "0xAB")).toOption.get rfl)
    ((getCoinFlipGameResult fmtEmpty cfRoomLowerWinner (some "0xab")).toOption.get rfl)
    rfl rfl (by decide) (by decide) (by decide) (by decide) rfl rfl rfl
  exact ⟨h.2.2.2.1, h.2.2.2.2, h.1⟩

/-! ## Behaviour of the poll loops -/

/-- A successful derivation exists whenever the room is inactive with a
nonzero winner (the two error guards are the only failure paths). -/
theorem getCoinFlipGameResult_isOk (fmt : Int → String) (room : CoinFlipRoom)
    (player : Option String) (ha : room.isActive = false)
    (hw : room.winner ≠ ZERO_ADDRESS) :
    ∃ r, getCoinFlipGameResult fmt room player = Except.ok r := by
  rw [getCoinFlipGameResult]
  rw [if_neg (by simp [ha]), if_neg hw]
  exact ⟨_, rfl⟩

/-- If the first `k` reads show an active room and the `k`-th read shows a
settled room, the CoinFlip poll loop returns the derivation of that read
(provided the budget admits at least `k + 1` iterations). -/
theorem waitForCoinFlipLoop_settled (fmt : Int → String)
    (rooms : Nat → CoinFlipRoom) (player : Option String) (timeout : Nat) :
    ∀ (k fuel tick : Nat), k < fuel →
      (∀ j, j < k → (rooms (tick + j)).isActive = true) →
      (rooms (tick + k)).isActive = false →
      (rooms (tick + k)).winner ≠ ZERO_ADDRESS →
      waitForCoinFlipLoop fmt rooms player timeout tick fuel =
        getCoinFlipGameResult fmt (rooms (tick + k)) player := by
  intro k
  induction k with
  | zero =>
    intro fuel tick hk hprev ha hw
    obtain ⟨f, rfl⟩ : ∃ f, fuel = f + 1 := ⟨fuel - 1, by omega⟩
    rw [waitForCoinFlipLoop]
    simp only [Nat.add_zero] at ha hw
    rw [if_pos ⟨ha, hw⟩, Nat.add_zero]
  | succ k ih =>
    intro fuel tick hk hprev ha hw
    obtain ⟨f, rfl⟩ : ∃ f, fuel = f + 1 := ⟨fuel - 1, by omega⟩
    rw [waitForCoinFlipLoop]
    have h0 : (rooms tick).isActive = true := by
      simpa using hprev 0 (Nat.succ_pos k)
    rw [if_neg (by simp [h0]), if_neg (by simp [h0])]
    have := ih f (tick + 1) (by omega)
      (fun j hj => by
        have := hprev (j + 1) (by omega)
        simpa [Nat.add_assoc, Nat.add_comm 1 j] using this)
      (by
        have hx : tick + 1 + k = tick + (k + 1) := by omega
        rw [hx]; exact ha)
      (by
        have hx : tick + 1 + k = tick + (k + 1) := by omega
        rw [hx]; exact hw)
    rw [this]
    have hx : tick + 1 + k = tick + (k + 1) := by omega
    rw [hx]

/-- If the first `k` reads show an active room and the `k`-th read shows a
cancelled room (inactive, zero winner, no opponent), the CoinFlip poll
loop fails with the cancelled error on that iteration. -/
theorem waitForCoinFlipLoop_cancelled (fmt : Int → String)
    (rooms : Nat → CoinFlipRoom) (player : Option String) (timeout : Nat) :
    ∀ (k fuel tick : Nat), k < fuel →
      (∀ j, j < k → (rooms (tick + j)).isActive = true) →
      (rooms (tick + k)).isActive = false →
      (rooms (tick + k)).winner = ZERO_ADDRESS →
      (rooms (tick + k)).playerB = ZERO_ADDRESS →
      waitForCoinFlipLoop fmt rooms player timeout tick fuel =
        Except.error "Room was cancelled before game started." := by
  intro k
  induction k with
  | zero =>
    intro fuel tick hk hprev ha hw hb
    obtain ⟨f, rfl⟩ : ∃ f, fuel = f + 1 := ⟨fuel - 1, by omega⟩
    rw [waitForCoinFlipLoop]
    simp only [Nat.add_zero] at ha hw hb
    rw [if_neg (by simp [hw]), if_pos ⟨ha, hw, hb⟩]
  | succ k ih =>
    intro fuel tick hk hprev ha hw hb
    obtain ⟨f, rfl⟩ : ∃ f, fuel = f + 1 := ⟨fuel - 1, by omega⟩
    rw [waitForCoinFlipLoop]
    have h0 : (rooms tick).isActive = true := by
      simpa using hprev 0 (Nat.succ_pos k)
    rw [if_neg (by simp [h0]), if_neg (by simp [h0])]
    have hx : tick + 1 + k = tick + (k + 1) := by omega
    exact ih f (tick + 1) (by omega)
      (fun j hj => by
        have := hprev (j + 1) (by omega)
        simpa [Nat.add_assoc, Nat.add_comm 1 j] using this)
      (by rw [hx]; exact ha) (by rw [hx]; exact hw) (by rw [hx]; exact hb)

/-- A CoinFlip room that stays active through every read makes the poll
loop spend its whole budget and fail with the timeout error. -/
theorem waitForCoinFlipLoop_waiting (fmt : Int → String)
    (rooms : Nat → CoinFlipRoom) (player : Option String) (timeout : Nat)
    (hact : ∀ n, (rooms n).isActive = true) :
    ∀ (fuel tick : Nat),
      waitForCoinFlipLoop fmt rooms player timeout tick fuel =
        Except.error (coinFlipTimeoutMessage timeout) := by
  intro fuel
  induction fuel with
  | zero => intro tick; rw [waitForCoinFlipLoop]
  | succ f ih =>
    intro tick
    rw [waitForCoinFlipLoop]
    rw [if_neg (by simp [hact tick]), if_neg (by simp [hact tick])]
    exact ih (tick + 1)

/-- A Dice room that never reads as settled (the only terminal check the
Dice poll loop performs) makes the loop spend its whole budget and fail
with the timeout error — in particular a cancelled Dice room is polled
until timeout. -/
theorem waitForDiceLoop_never_settled (fmt : Int → String)
    (getNumber : String → Int) (rooms : Nat → DiceRoom) (players : List String)
    (player : Option String) (timeout : Nat)
    (h : ∀ n, ¬((rooms n).isActive = false ∧ (rooms n).winner ≠ ZERO_ADDRESS)) :
    ∀ (fuel tick : Nat),
      waitForDiceLoop fmt getNumber rooms players player timeout tick fuel =
        Except.error (diceTimeoutMessage timeout) := by
  intro fuel
  induction fuel with
  | zero => intro tick; rw [waitForDiceLoop]
  | succ f ih =>
    intro tick
    rw [waitForDiceLoop]
    rw [if_neg (h tick)]
    exact ih (tick + 1)

/-! ## C5: cancelled-room detection while waiting -/

/-- Counterexample to C5 as stated: a Dice waiting session that observes a
cancelled room (inactive, zero winner, only the creator ever joined) on
every poll does not terminate with a cancelled error on that tick — it
polls until the budget is gone and fails with the timeout error (the Dice
poll loop has no cancellation branch). -/
theorem c5_counterexample :
    diceRoomCancelled.isActive = false ∧
    diceRoomCancelled.winner = ZERO_ADDRESS ∧
    diceRoomCancelled.currentPlayers = 1 ∧
    waitForDiceResult fmtEmpty diceNumberZero (fun _ => diceRoomCancelled) [] none
      { timeout := some 4000, pollInterval := some 2000 } =
      Except.error (diceTimeoutMessage 4000) ∧
    diceTimeoutMessage 4000 ≠ "Room was cancelled before game started." :=
  ⟨rfl, rfl, rfl, rfl, by decide⟩

/-- Claim C5 as amended: the CoinFlip waiter terminates with the cancelled
error on the first tick that observes a cancelled room (inactive, zero
winner, no opponent), for any poll budget that reaches that tick; the Dice
waiter performs no cancellation check, so a session whose reads all show a
cancelled Dice room fails with the timeout error instead. -/
theorem c5_cancelled_detection :
    (∀ (fmt : Int → String) (rooms : Nat → CoinFlipRoom) (player : Option String)
        (timeout pollInterval k : Nat),
        k < numPolls timeout pollInterval →
        (∀ j, j < k → (rooms j).isActive = true) →
        (rooms k).isActive = false → (rooms k).winner = ZERO_ADDRESS →
        (rooms k).playerB = ZERO_ADDRESS →
        waitForCoinFlipResult fmt rooms player
          { timeout := some timeout, pollInterval := some pollInterval } =
          Except.error "Room was cancelled before game started.") ∧
    (∀ (fmt : Int → String) (getNumber : String → Int) (rooms : Nat → DiceRoom)
        (players : List String) (player : Option String)
        (timeout pollInterval : Nat),
        (∀ n, (rooms n).isActive = false ∧ (rooms n).winner = ZERO_ADDRESS) →
        waitForDiceResult fmt getNumber rooms players player
          { timeout := some timeout, pollInterval := some pollInterval } =
          Except.error (diceTimeoutMessage timeout)) := by
  constructor
  · intro fmt rooms player timeout pollInterval k hk hprev ha hw hb
    have := waitForCoinFlipLoop_cancelled fmt rooms player timeout k
      (numPolls timeout pollInterval) 0 hk
      (fun j hj => by simpa using hprev j hj)
      (by simpa using ha) (by simpa using hw) (by simpa using hb)
    simpa [waitForCoinFlipResult] using this
  · intro fmt getNumber rooms players player timeout pollInterval h
    have hns : ∀ n, ¬((rooms n).isActive = false ∧ (rooms n).winner ≠ ZERO_ADDRESS) :=
      fun n hc => hc.2 (h n).2
    have := waitForDiceLoop_never_settled fmt getNumber rooms players player
      timeout hns (numPolls timeout pollInterval) 0
    simpa [waitForDiceResult] using this

/-- Witness for the amended C5 at the concrete cancelled rooms, with a
4-second budget and 2-second polls. -/
theorem c5_cancelled_detection_witness :
    waitForCoinFlipResult fmtEmpty (fun _ => cfRoomCancelled) none
      { timeout := some 4000, pollInterval := some 2000 } =
      Except.error "Room was cancelled before game started." ∧
    waitForDiceResult fmtEmpty diceNumberZero (fun _ => diceRoomCancelled) [] none
      { timeout := some 4000, pollInterval := some 2000 } =
      Except.error (diceTimeoutMessage 4000) :=
  ⟨c5_cancelled_detection.1 fmtEmpty (fun _ => cfRoomCancelled) none 4000 2000 0
    (by decide) (fun j hj => absurd hj (Nat.not_lt_zero j)) rfl rfl rfl,
   c5_cancelled_detection.2 fmtEmpty diceNumberZero (fun _ => diceRoomCancelled)
    [] none 4000 2000 (fun _ => ⟨rfl, rfl⟩)⟩

/-! ## C6: waiter defaults and timeout boundary -/

/-- A read sequence in which the room is still waiting on the first read
and settled from the second read on. -/
def cfRoomsSettleAt1 : Nat → CoinFlipRoom :=
  fun n => if n = 0 then cfRoomActive else cfRoomSettled

/-- Claim C6: both waiters default to a 120000 ms timeout and 2000 ms poll
interval (a 60-poll budget); with timeout 10000 ms and poll interval
2000 ms the budget is exactly 5 polls, a room that never leaves the
waiting state produces the timeout error only after those 5 polls, and a
room that settles at any poll `k < 5` makes the session return the
derived result instead of a timeout — the timeout is checked only at poll
ticks and never fires before the budget is consumed. -/
theorem c6_waiter_defaults_and_timeout :
    (∀ (fmt : Int → String) (rooms : Nat → CoinFlipRoom) (player : Option String),
        waitForCoinFlipResult fmt rooms player {} =
          waitForCoinFlipLoop fmt rooms player 120000 0 (numPolls 120000 2000)) ∧
    (∀ (fmt : Int → String) (getNumber : String → Int) (rooms : Nat → DiceRoom)
        (players : List String) (player : Option String),
        waitForDiceResult fmt getNumber rooms players player {} =
          waitForDiceLoop fmt getNumber rooms players player 120000 0
            (numPolls 120000 2000)) ∧
    numPolls 120000 2000 = 60 ∧
    numPolls 10000 2000 = 5 ∧
    (∀ (fmt : Int → String) (rooms : Nat → CoinFlipRoom) (player : Option String),
        (∀ n, (rooms n).isActive = true) →
        waitForCoinFlipResult fmt rooms player
          { timeout := some 10000, pollInterval := some 2000 } =
          Except.error (coinFlipTimeoutMessage 10000)) ∧
    (∀ (fmt : Int → String) (getNumber : String → Int) (rooms : Nat → DiceRoom)
        (players : List String) (player : Option String),
        (∀ n, (rooms n).isActive = true) →
        waitForDiceResult fmt getNumber rooms players player
          { timeout := some 10000, pollInterval := some 2000 } =
          Except.error (diceTimeoutMessage 10000)) ∧
    (∀ (fmt : Int → String) (rooms : Nat → CoinFlipRoom) (player : Option String)
        (k : Nat), k < 5 →
        (∀ j, j < k → (rooms j).isActive = true) →
        (rooms k).isActive = false → (rooms k).winner ≠ ZERO_ADDRESS →
        waitForCoinFlipResult fmt rooms player
          { timeout := some 10000, pollInterval := some 2000 } =
          getCoinFlipGameResult fmt (rooms k) player ∧
        ∃ r, waitForCoinFlipResult fmt rooms player
          { timeout := some 10000, pollInterval := some 2000 } = Except.ok r) := by
  refine ⟨fun _ _ _ => rfl, fun _ _ _ _ _ => rfl, by decide, by decide, ?_, ?_, ?_⟩
  · intro fmt rooms player hact
    have := waitForCoinFlipLoop_waiting fmt rooms player 10000 hact
      (numPolls 10000 2000) 0
    simpa [waitForCoinFlipResult] using this
  · intro fmt getNumber rooms players player hact
    have hns : ∀ n, ¬((rooms n).isActive = false ∧ (rooms n).winner ≠ ZERO_ADDRESS) :=
      fun n hc => by rw [hact n] at hc; exact Bool.noConfusion hc.1
    have := waitForDiceLoop_never_settled fmt getNumber rooms players player
      10000 hns (numPolls 10000 2000) 0
    simpa [waitForDiceResult] using this
  · intro fmt rooms player k hk hprev ha hw
    have hnum : numPolls 10000 2000 = 5 := by decide
    have heq := waitForCoinFlipLoop_settled fmt rooms player 10000 k
      (numPolls 10000 2000) 0 (by omega)
      (fun j hj => by simpa using hprev j hj)
      (by simpa using ha) (by simpa using hw)
    have heq' : waitForCoinFlipResult fmt rooms player
        { timeout := some 10000, pollInterval := some 2000 } =
        getCoinFlipGameResult fmt (rooms k) player := by
      simpa [waitForCoinFlipResult] using heq
    obtain ⟨r, hr⟩ := getCoinFlipGameResult_isOk fmt (rooms k) player ha hw
    exact ⟨heq', r, by rw [heq', hr]⟩

/-- Witness for C6: the defaults at concrete inputs, the 5-poll budget,
a timeout run on an always-waiting room, and a run that settles at the
second poll and returns the derived result. -/
theorem c6_waiter_defaults_and_timeout_witness :
    waitForCoinFlipResult fmtEmpty (fun _ => cfRoomActive) none {} =
      waitForCoinFlipLoop fmtEmpty (fun _ => cfRoomActive) none 120000 0
        (numPolls 120000 2000) ∧
    numPolls 10000 2000 = 5 ∧
    waitForCoinFlipResult fmtEmpty (fun _ => cfRoomActive) none
      { timeout := some 10000, pollInterval := some 2000 } =
      Except.error (coinFlipTimeoutMessage 10000) ∧
    waitForDiceResult fmtEmpty diceNumberZero (fun _ => diceRoomActive) [] none
      { timeout := some 10000, pollInterval := some 2000 } =
      Except.error (diceTimeoutMessage 10000) ∧
    waitForCoinFlipResult fmtEmpty cfRoomsSettleAt1 none
      { timeout := some 10000, pollInterval := some 2000 } =
      getCoinFlipGameResult fmtEmpty cfRoomSettled none := by
  have h7 := c6_waiter_defaults_and_timeout.2.2.2.2.2.2 fmtEmpty cfRoomsSettleAt1
    none 1 (by omega)
    (fun j hj => by
      have : j = 0 := by omega
      subst this
      rfl)
    rfl (by decide)
  refine ⟨c6_waiter_defaults_and_timeout.1 fmtEmpty (fun _ => cfRoomActive) none,
    c6_waiter_defaults_and_timeout.2.2.2.1,
    c6_waiter_defaults_and_timeout.2.2.2.2.1 fmtEmpty (fun _ => cfRoomActive) none
      (fun _ => rfl),
    c6_waiter_defaults_and_timeout.2.2.2.2.2.1 fmtEmpty diceNumberZero
      (fun _ => diceRoomActive) [] none (fun _ => rfl),
    h7.1⟩

/-! ## C7: gas fee buffering in the VRF cost estimate -/

/-- A concrete wrapper price function for the witness runs. -/
def samplePriceFn : Int → Int → Int → Except String Int :=
  fun gasLimit numWords gasPriceWei => Except.ok (gasLimit * gasPriceWei + numWords)

/-- Claim C7: with primary fee data maxFeePerGas = X and priority = Y
(any sign relation, including X < Y), `estimateVrfCost` returns
`maxFeePerGas = ⌊max(X,Y)·140/100⌋` and `maxPriorityFeePerGas = Y`, and
obtains the cost by passing exactly the callback gas limit, word count 1
and that buffered gas price to the wrapper's price function; for
nonnegative readings the buffered value is the floor of a 40% increase
and is at least Y. -/
theorem c7_gas_buffer :
    ∀ (gl X Y : Int) (g : Except String Int)
      (f : Int → Int → Int → Except String Int),
      (estimateVrfCost ⟨Except.ok gl, Except.ok ⟨some X, some Y⟩, g, f⟩ =
        (f gl 1 (Int.tdiv (max X Y * 140) 100)).map
          (fun c => ⟨c, Int.tdiv (max X Y * 140) 100, Y⟩)) ∧
      (0 ≤ X → 0 ≤ Y →
        Int.tdiv (max X Y * 140) 100 = max X Y * 140 / 100 ∧
        Y ≤ Int.tdiv (max X Y * 140) 100) := by
  intro gl X Y g f
  have hmax : (if X > Y then X else Y) = max X Y := by
    rcases le_or_lt X Y with h | h
    · rw [if_neg (not_lt.mpr h), max_eq_right h]
    · rw [if_pos h, max_eq_left h.le]
  constructor
  · rw [estimateVrfCost]
    simp only [Option.getD, bind, Except.bind, pure, Except.pure]
    rw [hmax]
    rcases hf : f gl 1 (Int.tdiv (max X Y * 140) 100) with e | c <;>
      simp [Except.map, hf]
  · intro hX hY
    have h0 : (0 : Int) ≤ max X Y := le_max_of_le_left hX
    have htd : Int.tdiv (max X Y * 140) 100 = max X Y * 140 / 100 :=
      Int.tdiv_eq_ediv (by positivity) (by norm_num)
    refine ⟨htd, ?_⟩
    rw [htd, Int.le_ediv_iff_mul_le (by norm_num : (0:Int) < 100)]
    calc Y * 100 ≤ max X Y * 100 :=
          mul_le_mul_of_nonneg_right (le_max_right X Y) (by norm_num)
      _ ≤ max X Y * 140 := by nlinarith

/-- Witness for C7 with X = 100 < Y = 300: the buffered max fee is
`⌊max(100,300)·140/100⌋ = 420 ≥ 300`, and the wrapper is consulted at
gas limit 200000, word count 1 and gas price 420. -/
theorem c7_gas_buffer_witness :
    estimateVrfCost ⟨Except.ok 200000, Except.ok ⟨some 100, some 300⟩,
        Except.error "gas price unused", samplePriceFn⟩ =
      (samplePriceFn 200000 1 (Int.tdiv (max 100 300 * 140) 100)).map
        (fun c => ⟨c, Int.tdiv (max 100 300 * 140) 100, 300⟩) ∧
    (300 : Int) ≤ Int.tdiv (max 100 300 * 140) 100 ∧
    Int.tdiv (max (100 : Int) 300 * 140) 100 = 420 := by
  have h := c7_gas_buffer 200000 100 300 (Except.error "gas price unused")
    samplePriceFn
  exact ⟨h.1, (h.2 (by decide) (by decide)).2, by decide⟩

/-! ## C8: fallback path and error propagation -/

/-- A write function for the witness runs (never reached when estimation
fails). -/
def sampleWriteFn : Int → Int → Int → Except String TransactionResult :=
  fun _ _ _ => Except.ok ⟨"0xdeadbeef"⟩

/-- An environment whose primary fee estimation and flat gas-price
fallback both fail. -/
def sampleFailEnv : VrfEnv :=
  ⟨Except.ok 200000, Except.error "primary down", Except.error "rpc down",
    samplePriceFn⟩

/-- Claim C8: the flat gas-price query with the fixed 1500000000 wei
priority fee is used exactly when the primary path fails (a successful
primary makes the estimate independent of the gas-price read); and every
failing read in the chain — callback gas limit, both gas paths, or the
wrapper price query — propagates its error, so `joinCoinFlipRoom`, which
awaits the estimate before writing, fails with that error whatever the
write would have done. -/
theorem c8_fallback_and_error_propagation :
    (∀ (cb : Except String Int) (fd : FeesPerGas) (g₁ g₂ : Except String Int)
        (f : Int → Int → Int → Except String Int),
        estimateVrfCost ⟨cb, Except.ok fd, g₁, f⟩ =
          estimateVrfCost ⟨cb, Except.ok fd, g₂, f⟩) ∧
    (∀ (gl gp : Int) (e : String) (f : Int → Int → Int → Except String Int),
        estimateVrfCost ⟨Except.ok gl, Except.error e, Except.ok gp, f⟩ =
          (f gl 1 (Int.tdiv (max gp 1500000000 * 140) 100)).map
            (fun c => ⟨c, Int.tdiv (max gp 1500000000 * 140) 100, 1500000000⟩)) ∧
    (∀ (e : String) (fees : Except String FeesPerGas) (g : Except String Int)
        (f : Int → Int → Int → Except String Int),
        estimateVrfCost ⟨Except.error e, fees, g, f⟩ = Except.error e) ∧
    (∀ (gl : Int) (e₁ e₂ : String) (f : Int → Int → Int → Except String Int),
        estimateVrfCost ⟨Except.ok gl, Except.error e₁, Except.error e₂, f⟩ =
          Except.error e₂) ∧
    (∀ (gl X Y : Int) (g : Except String Int) (e : String),
        estimateVrfCost ⟨Except.ok gl, Except.ok ⟨some X, some Y⟩, g,
          fun _ _ _ => Except.error e⟩ = Except.error e) ∧
    (∀ (env : VrfEnv) (e : String)
        (w₁ w₂ : Int → Int → Int → Except String TransactionResult),
        estimateVrfCost env = Except.error e →
        joinCoinFlipRoom true env w₁ = Except.error e ∧
        joinCoinFlipRoom true env w₁ = joinCoinFlipRoom true env w₂) := by
  refine ⟨fun _ _ _ _ _ => rfl, ?_, fun _ _ _ _ => rfl, fun _ _ _ _ => rfl,
    fun _ _ _ _ _ => rfl, ?_⟩
  · intro gl gp e f
    rw [estimateVrfCost]
    simp only [bind, Except.bind, pure, Except.pure]
    rcases le_or_lt gp 1500000000 with h | h
    · simp only [if_neg (not_lt.mpr h), if_neg (lt_irrefl (1500000000 : Int)),
        max_eq_right h]
      rcases hf : f gl 1 (Int.tdiv ((1500000000 : Int) * 140) 100) with e' | c <;>
        rfl
    · simp only [if_pos h, max_eq_left h.le]
      rcases hf : f gl 1 (Int.tdiv (gp * 140) 100) with e' | c <;>
        rfl
  · intro env e w₁ w₂ h
    constructor <;> simp [joinCoinFlipRoom, h, bind, Except.bind]

/-- Witness for C8: with both gas paths down the join fails with the
fallback error and never reaches the write; with the primary path down
but the flat gas price available, the 1.5 gwei default priority fee and
the buffered flat price are used. -/
theorem c8_fallback_and_error_propagation_witness :
    joinCoinFlipRoom true sampleFailEnv sampleWriteFn = Except.error "rpc down" ∧
    estimateVrfCost ⟨Except.ok 200000, Except.error "primary down",
        Except.ok 2000000000, samplePriceFn⟩ =
      (samplePriceFn 200000 1 (Int.tdiv (max 2000000000 1500000000 * 140) 100)).map
        (fun c => ⟨c, Int.tdiv (max 2000000000 1500000000 * 140) 100, 1500000000⟩) ∧
    estimateVrfCost ⟨Except.ok 200000, Except.ok ⟨some 100, some 300⟩,
        Except.error "rpc down", samplePriceFn⟩ =
      estimateVrfCost ⟨Except.ok 200000, Except.ok ⟨some 100, some 300⟩,
        Except.ok 2000000000, samplePriceFn⟩ := by
  refine ⟨?_, c8_fallback_and_error_propagation.2.1 200000 2000000000
      "primary down" samplePriceFn,
    c8_fallback_and_error_propagation.1 (Except.ok 200000) ⟨some 100, some 300⟩
      (Except.error "rpc down") (Except.ok 2000000000) samplePriceFn⟩
  exact (c8_fallback_and_error_propagation.2.2.2.2.2 sampleFailEnv "rpc down"
    sampleWriteFn sampleWriteFn
    (c8_fallback_and_error_propagation.2.2.2.1 200000 "primary down" "rpc down"
      samplePriceFn)).1
